import Mathlib

/-!
Verification of the bounded-concurrency consumer/dispatcher worker
(`app/services/proxy_agent.py`, `worker/agent_logic.py`,
`worker/consumer.py`, `app/agents/base_agent.py`).

The Python code is shallowly embedded: each relevant function becomes an
executable Lean definition over explicit inputs, and side effects (Redis
status writes, RocketMQ publishes, semaphore operations, acknowledgments)
become events in an explicit trace.  External behaviour that the code only
reacts to (whether the prepare/process/parse steps of the agent raise, whether a
message body decodes as UTF-8 and parses as JSON, whether the producer send
succeeds) is passed in as a parameter, exactly mirroring the branch structure
of the source.  Redis and the event loop itself are modelled as non-failing:
the claims under study are about the control flow of the worker itself.
-/

/-- A JSON scalar value, as it appears in the result-topic message body built
by `ProxyAgent._send_result_to_mq` (`json.dumps` of a three-key dict whose
values are strings or `None`). -/
inductive JVal where
  | null
  | jstr (s : String)
  | jbool (b : Bool)
  deriving DecidableEq, Repr

/-- JSON encoding of an optional string, as `json.dumps` renders a
possibly-`None` Python value. -/
def optJ : Option String → JVal
  | none => JVal.null
  | some s => JVal.jstr s

/-- Field lookup in a JSON object represented as an association list. -/
def lookupField (k : String) : List (String × JVal) → Option JVal
  | [] => none
  | (k', v) :: rest => if k' = k then some v else lookupField k rest

/-- The `task_data` dict that `ProxyAgent._consumer_loop` builds from a parsed
message and hands to `process_task`.  `task_id` and `user_id` come from
`data.get(...)` with no default (so may be absent); `agent_type` is
`data.get("agent_type", "mock_agent")`; `content` is
`data.get("payload", data.get("content", ""))`.  The agent-facing payload is
abstracted to its content string. -/
structure TaskData where
  task_id : Option String
  user_id : Option String
  agent_type : String
  content : String
  deriving DecidableEq, Repr

/-- The `error` value inside an agent result dict: `BaseAgent.handle_error`
stores a plain string, while the exception branch of `ProxyAgent.process_task`
builds a structured code/message object. -/
inductive ErrVal where
  | str (s : String)
  | codeMsg (code msg : String)
  deriving DecidableEq, Repr

/-- The result dict an agent execution produces, with the keys
`ProxyAgent.process_task` and `_send_result_to_mq` read via `.get`:
`success` (defaulted to `True` when absent), `data` (the agent-defined
payload, abstracted to a string), `error`, plus the correlation keys. -/
structure ResultDict where
  success : Option Bool
  data : Option String
  error : Option ErrVal
  task_id : Option String
  user_id : Option String
  agent_type : Option String
  deriving DecidableEq, Repr

/-- What the three steps of the agent do when run: either
`prepare_input`/`process`/`parse_response` complete and yield a parsed result
dict, or one of them raises with a message. -/
inductive AgentStep where
  | ok (parsed : ResultDict)
  | exn (msg : String)
  deriving DecidableEq, Repr

/-- Embedding of `BaseAgent.handle_error` (`app/agents/base_agent.py`): the error response
dict for an exception caught inside `execute` — a plain string `error`, no
`data` key, no structured code. -/
def BaseAgent.handle_error (agentType : String) (taskId : Option String)
    (e : String) : ResultDict :=
  { success := some false
    data := none
    error := some (ErrVal.str e)
    task_id := taskId
    user_id := none
    agent_type := some agentType }

/-- Embedding of `BaseAgent.execute`: runs prepare/process/parse and catches any
exception, converting it into the `handle_error` dict; it never raises to its
caller. -/
def BaseAgent.execute (agentType : String) (taskId : Option String)
    (step : AgentStep) : ResultDict :=
  match step with
  | AgentStep.ok r => r
  | AgentStep.exn e => BaseAgent.handle_error agentType taskId e

/-- The agent registry of `app/agents/__init__.py`: only `mock_agent` is
registered; `create_agent` raises `ValueError` for any other type. -/
def agentRegistry : List String := ["mock_agent"]

/-- Embedding of `ProxyAgent._execute_task`: `create_agent(agent_type)` raises for an
unregistered type (re-raised after logging); otherwise `agent.execute` runs
and never raises.  The `Except` error carries the exception message. -/
def ProxyAgent.execute_task (step : AgentStep) (agentType : String)
    (taskId : Option String) : Except String ResultDict :=
  if agentType ∈ agentRegistry then
    Except.ok (BaseAgent.execute agentType taskId step)
  else
    Except.error ("Unknown agent type: " ++ agentType)

/-- An observable side effect of the task processor: a Redis write of
`task:{id}:status` (value is the raw string stored), or a publish of a message
body to the RocketMQ result topic. -/
inductive Ev where
  | setStatus (taskId : Option String) (value : String)
  | publish (body : List (String × JVal))
  deriving DecidableEq, Repr

/-- The result-topic message body built in `ProxyAgent._send_result_to_mq`:
`json.dumps` over exactly the keys `task_id`, `user_id` and `result`, where
`result` is `result.get("data")` — `None` when the result dict has no `data`
key. -/
def ProxyAgent.send_result_body (td : TaskData) (r : ResultDict) :
    List (String × JVal) :=
  [("task_id", optJ td.task_id), ("user_id", optJ td.user_id),
   ("result", optJ r.data)]

/-- The `try` block of `_send_result_to_mq`: message construction plus the
blocking `producer.send`, which may raise (the `sendOk` parameter records
whether it does). -/
def ProxyAgent.send_result_raw (sendOk : Bool) (td : TaskData)
    (r : ResultDict) : Except String (List Ev) :=
  if sendOk then Except.ok [Ev.publish (ProxyAgent.send_result_body td r)]
  else Except.error "send failed"

/-- Embedding of `ProxyAgent._send_result_to_mq`: returns immediately (publishing nothing)
when the producer is uninitialized, and otherwise catches every exception from
the try block, only logging it — so it never raises to its caller and on a
send failure simply publishes nothing. -/
def ProxyAgent.send_result_to_mq (producerInit sendOk : Bool) (td : TaskData)
    (r : ResultDict) : List Ev :=
  if producerInit then
    match ProxyAgent.send_result_raw sendOk td r with
    | Except.ok evs => evs
    | Except.error _ => []
  else []

/-- Embedding of `ProxyAgent.process_task`: writes status `running` (with no prior read of
the status store), runs `_execute_task`, then on an explicit
`success == False` result writes `failed` and sends the result; on an
exception writes `failed`, sends a constructed `PROCESSING_ERROR` result and
re-raises; otherwise writes `done` and sends the result.  The returned pair is
(what the coroutine returns or raises, the event trace in program order). -/
def ProxyAgent.process_task (producerInit sendOk : Bool) (step : AgentStep)
    (td : TaskData) : Except String ResultDict × List Ev :=
  let tid := td.task_id
  let ev0 : List Ev := [Ev.setStatus tid "running"]
  match ProxyAgent.execute_task step td.agent_type tid with
  | Except.error e =>
      let errRes : ResultDict :=
        { success := some false
          data := none
          error := some (ErrVal.codeMsg "PROCESSING_ERROR" e)
          task_id := tid
          user_id := td.user_id
          agent_type := some td.agent_type }
      (Except.error e,
        ev0 ++ [Ev.setStatus tid "failed"]
            ++ ProxyAgent.send_result_to_mq producerInit sendOk td errRes)
  | Except.ok r =>
      if r.success.getD true = false then
        (Except.ok r,
          ev0 ++ [Ev.setStatus tid "failed"]
              ++ ProxyAgent.send_result_to_mq producerInit sendOk td r)
      else
        (Except.ok r,
          ev0 ++ [Ev.setStatus tid "done"]
              ++ ProxyAgent.send_result_to_mq producerInit sendOk td r)

/-- The last value written to `task:{tid}:status` in a trace, i.e. the status
the store holds for `tid` after the trace runs (Redis writes are last-write
wins). -/
def lastStatus (tid : Option String) : List Ev → Option String
  | [] => none
  | e :: rest =>
      match lastStatus tid rest with
      | some v => some v
      | none =>
          match e with
          | Ev.setStatus t v => if t = tid then some v else none
          | _ => none

/-- Number of publish events in a trace. -/
def publishCount : List Ev → Nat
  | [] => 0
  | Ev.publish _ :: rest => publishCount rest + 1
  | _ :: rest => publishCount rest

/-- The bodies published in a trace, in order. -/
def publishedBodies : List Ev → List (List (String × JVal))
  | [] => []
  | Ev.publish b :: rest => b :: publishedBodies rest
  | _ :: rest => publishedBodies rest

/-- The mock result of `worker/agent_logic.py` (a `TaskResult` model). -/
structure TaskResult where
  tags : List String
  score : Nat
  reason : String
  deriving DecidableEq, Repr

/-- An observable side effect of `core_agent_logic`: a status write, the
simulated agent work, or the result write of the Redis pipeline. -/
inductive CoreEv where
  | setStatus (taskId : String) (value : String)
  | runAgent (payload : String)
  | setResult (taskId : String) (result : TaskResult)
  deriving DecidableEq, Repr

/-- Embedding of `core_agent_logic` (`worker/agent_logic.py`): reads
`task:{task_id}:status` (passed in as `st`); returns immediately when it is
`"canceled"` or `"done"`; otherwise writes `running`, does the mock work, and
writes the result plus status `done` in a pipeline. -/
def core_agent_logic (st : Option String) (taskId payload : String) :
    List CoreEv :=
  if st = some "canceled" then []
  else if st = some "done" then []
  else
    [CoreEv.setStatus taskId "running",
     CoreEv.runAgent payload,
     CoreEv.setResult taskId
       { tags := ["数码", "降价敏感"], score := 95,
         reason := "用户关注了内容: " ++ payload },
     CoreEv.setStatus taskId "done"]

/-- Default value of the `max_concurrent_tasks` argument of `ProxyAgent.__init__`. -/
def ProxyAgent.max_concurrent_tasks_default : Nat := 10

/-- State of the admission gate: the internal permit count of the
`asyncio.Semaphore`
count together with the `_active_tasks` counter (tasks acquired and not yet
finished, i.e. the tasks this worker currently attributes `running` status
to). -/
structure GateState where
  permits : Nat
  active : Nat
  deriving DecidableEq, Repr

/-- Initial gate state after `startup`: `asyncio.Semaphore(N)` and
`_active_tasks = 0`. -/
def initGate (n : Nat) : GateState := { permits := n, active := 0 }

/-- One atomic transition of the admission gate.  `accept` is the consumer
loop admitting a message: `semaphore.acquire()` completes only when a permit
is free, then `_active_tasks += 1`.  `finish` is the `finally` block of
`_process_with_semaphore`: `semaphore.release(); _active_tasks -= 1`, which
runs both when `process_task` returns and when it raises. -/
inductive GateStep : GateState → GateState → Prop where
  | accept (s : GateState) (h : 0 < s.permits) :
      GateStep s { permits := s.permits - 1, active := s.active + 1 }
  | finish (s : GateState) (h : 0 < s.active) :
      GateStep s { permits := s.permits + 1, active := s.active - 1 }

/-- States the gate can reach from the initial state by any interleaving of
admissions and completions. -/
inductive GateReach (n : Nat) : GateState → Prop where
  | init : GateReach n (initGate n)
  | step {s s' : GateState} : GateReach n s → GateStep s s' → GateReach n s'

/-- Observable actions of `ProxyAgent._process_with_semaphore`. -/
inductive PwsEv where
  | taskReturned
  | taskErrorLogged (e : String)
  | releasePermit
  | decActive
  deriving DecidableEq, Repr

/-- Embedding of `ProxyAgent._process_with_semaphore`: awaits `process_task`, logging (not
propagating) any exception, and in a `finally` block releases the semaphore
and decrements `_active_tasks` — on both the normal and the raising path. -/
def ProxyAgent.process_with_semaphore (r : Except String ResultDict) :
    List PwsEv :=
  (match r with
   | Except.ok _ => [PwsEv.taskReturned]
   | Except.error e => [PwsEv.taskErrorLogged e]) ++
  [PwsEv.releasePermit, PwsEv.decActive]

/-- The parsed JSON dict of a task message, with the keys
`ProxyAgent._consumer_loop` reads via `.get`. -/
structure ParsedMsg where
  task_id : Option String
  user_id : Option String
  agent_type : Option String
  payload : Option String
  content : Option String
  deriving DecidableEq, Repr

/-- How the body of a received message behaves under
`msg.body.decode("utf-8")` followed by `json.loads`: the bytes are not valid
UTF-8 (decode raises `UnicodeDecodeError`), or they decode to a string that
is not valid JSON (`json.loads` raises `json.JSONDecodeError`), or they parse
to a dict. -/
inductive MsgBody where
  | notUtf8
  | badJson (s : String)
  | jsonDict (d : ParsedMsg)
  deriving DecidableEq, Repr

/-- The `task_data` dict the consumer loop builds from a parsed message:
`agent_type` defaults to `mock_agent`, content is
`data.get("payload", data.get("content", ""))`. -/
def taskDataOfMsg (d : ParsedMsg) : TaskData :=
  { task_id := d.task_id
    user_id := d.user_id
    agent_type := d.agent_type.getD "mock_agent"
    content := d.payload.getD (d.content.getD "") }

/-- Observable per-message actions of the consumer loop. -/
inductive ConsEv where
  | acquireSem
  | incActive
  | ackMsg
  | dispatchTask (d : TaskData)
  deriving DecidableEq, Repr

/-- How the consumer loop disposed of one message. -/
inductive MsgOutcome where
  | saturatedBreak
  | ackedPoison
  | leftForRedelivery
  | accepted (d : TaskData)
  deriving DecidableEq, Repr

/-- Handling of one message inside the `for msg in messages` loop of
`ProxyAgent._consumer_loop`, at in-flight count `active` against capacity
`maxC`: break (leaving the message unacknowledged) when saturated; on a
`UnicodeDecodeError` fall into the generic `except Exception` handler, which
does not acknowledge; on a `json.JSONDecodeError` acknowledge and drop;
otherwise re-check capacity, then acquire the semaphore, increment
`_active_tasks`, acknowledge, and dispatch a background task. -/
def ProxyAgent.consume_message (maxC active : Nat) (b : MsgBody) :
    MsgOutcome × List ConsEv :=
  if maxC ≤ active then (MsgOutcome.saturatedBreak, [])
  else
    match b with
    | MsgBody.notUtf8 => (MsgOutcome.leftForRedelivery, [])
    | MsgBody.badJson _ => (MsgOutcome.ackedPoison, [ConsEv.ackMsg])
    | MsgBody.jsonDict d =>
        if maxC ≤ active then (MsgOutcome.saturatedBreak, [])
        else
          (MsgOutcome.accepted (taskDataOfMsg d),
           [ConsEv.acquireSem, ConsEv.incActive, ConsEv.ackMsg,
            ConsEv.dispatchTask (taskDataOfMsg d)])

/-- Draining one received batch: handle messages in order, threading the
`_active_tasks` counter (which only the loop increments; concurrent
completions only free capacity, so this is the worst case), and stop at the
first saturation break, leaving the remaining messages unprocessed for
natural redelivery.  Returns the final counter and the per-message outcomes
of the messages actually handled. -/
def ProxyAgent.drain_batch (maxC : Nat) :
    Nat → List MsgBody → Nat × List (MsgOutcome × List ConsEv)
  | active, [] => (active, [])
  | active, b :: rest =>
      let r := ProxyAgent.consume_message maxC active b
      match r.1 with
      | MsgOutcome.saturatedBreak => (active, [])
      | MsgOutcome.accepted _ =>
          let rec' := ProxyAgent.drain_batch maxC (active + 1) rest
          (rec'.1, r :: rec'.2)
      | _ =>
          let rec' := ProxyAgent.drain_batch maxC active rest
          (rec'.1, r :: rec'.2)

/-- Loop-level actions of one iteration of `_consumer_loop`. -/
inductive IterEv where
  | sleepBackoff
  | receiveCall (maxMessageNum invisibleDuration : Nat)
  deriving DecidableEq, Repr

/-- One iteration of the `while not stop` body of `_consumer_loop`: when
`_active_tasks >= max_concurrent_tasks` sleep and re-check without receiving;
otherwise call `receive` with `max_message_num = min(available_slots, 16)`
and `invisible_duration = 30`, sleep when the batch is empty, and otherwise
drain it.  `incoming` is what `receive` returned. -/
def ProxyAgent.loop_iteration (maxC active : Nat) (incoming : List MsgBody) :
    List IterEv × (Nat × List (MsgOutcome × List ConsEv)) :=
  if maxC ≤ active then ([IterEv.sleepBackoff], (active, []))
  else
    let batch := min (maxC - active) 16
    if incoming = [] then
      ([IterEv.receiveCall batch 30, IterEv.sleepBackoff], (active, []))
    else
      ([IterEv.receiveCall batch 30], ProxyAgent.drain_batch maxC active incoming)

/-- Observable actions of `ProxyAgent.shutdown`. -/
inductive ShutEv where
  | signalStop
  | awaitLoopWithTimeout (sec : Nat)
  | warnLoopTimeout
  | cancelLoop
  | drainSleepSecond
  | warnTasksStillActive (n : Nat)
  | mqShutdownAll
  | redisClose
  deriving DecidableEq, Repr

/-- The `while _active_tasks > 0 and wait_time < 30` drain loop of
`shutdown`, by fuel recursion on the remaining seconds of the 30-second
budget: `activeAt t` is the number of in-flight tasks after `t` seconds of
waiting.  Returns the final `wait_time` and the sleep events. -/
def ProxyAgent.drain_wait (activeAt : Nat → Nat) :
    Nat → Nat → Nat × List ShutEv
  | t, 0 => (t, [])
  | t, fuel + 1 =>
      if 0 < activeAt t then
        let r := ProxyAgent.drain_wait activeAt (t + 1) fuel
        (r.1, ShutEv.drainSleepSecond :: r.2)
      else (t, [])

/-- Embedding of `ProxyAgent.shutdown`: no-op if not started; otherwise set the stop
event, `asyncio.wait_for` the consumer task with a 10 second timeout (on
timeout: warn and cancel it), then if tasks are in flight run the bounded
30-second drain loop and warn if any remain, and finally clean up by shutting
down the MQ connections while deliberately leaving the shared Redis client
open. -/
def ProxyAgent.shutdown (started loopExits : Bool) (activeAt : Nat → Nat) :
    List ShutEv :=
  if started then
    [ShutEv.signalStop, ShutEv.awaitLoopWithTimeout 10] ++
    (if loopExits then [] else [ShutEv.warnLoopTimeout, ShutEv.cancelLoop]) ++
    (if 0 < activeAt 0 then
        let r := ProxyAgent.drain_wait activeAt 0 30
        r.2 ++ (if 0 < activeAt r.1 then
                  [ShutEv.warnTasksStillActive (activeAt r.1)]
                else [])
     else []) ++
    [ShutEv.mqShutdownAll]
  else []

/-- Occurrence count of an element in a list. -/
def countEv {α : Type} [DecidableEq α] (e : α) : List α → Nat
  | [] => 0
  | x :: xs => (if x = e then 1 else 0) + countEv e xs

/-- Sample task data used by concrete witnesses. -/
def tdSample : TaskData :=
  { task_id := some "t1", user_id := some "u1", agent_type := "mock_agent",
    content := "watch price drop" }

/-- Sample parsed message used by concrete witnesses. -/
def pmSample : ParsedMsg :=
  { task_id := some "t1", user_id := some "u1", agent_type := none,
    payload := some "watch price drop", content := none }

/-- A batch of three structurally valid messages, for the capacity-2 witness. -/
def sampleBatch : List MsgBody :=
  [MsgBody.jsonDict pmSample, MsgBody.jsonDict pmSample, MsgBody.jsonDict pmSample]

/-- A successful agent result dict, for concrete witnesses. -/
def okSample : ResultDict :=
  { success := some true, data := some "d", error := none,
    task_id := some "t1", user_id := some "u1", agent_type := some "mock_agent" }

/-- In every reachable gate state, permits and active tasks partition the
configured capacity. -/
lemma gateReach_sum {n : Nat} {s : GateState} (h : GateReach n s) :
    s.permits + s.active = n := by
  induction h with
  | init => simp [initGate]
  | step _ hstep ih =>
      cases hstep with
      | accept hp => simp only at ih ⊢; omega
      | finish ha => simp only at ih ⊢; omega

/-- Claim C1: across every interleaving of admissions and completions, the
number of tasks this worker has simultaneously admitted into processing (the
tasks it attributes status `running` to) never exceeds the configured
capacity `n` (`ProxyAgent.max_concurrent_tasks`); and
`_process_with_semaphore` releases its permit on both the normal and the
raising path of the task processor (the `finally` block). -/
theorem c1_concurrency_bound (n : Nat) (s : GateState) (h : GateReach n s) :
    s.active ≤ n ∧
    ∀ r : Except String ResultDict,
      PwsEv.releasePermit ∈ ProxyAgent.process_with_semaphore r := by
  refine ⟨?_, ?_⟩
  · have := gateReach_sum h
    omega
  · intro r
    cases r <;> simp [ProxyAgent.process_with_semaphore]

/-- Witness for C1 at the default capacity 10 and the initial state. -/
theorem c1_concurrency_bound_witness :
    GateReach ProxyAgent.max_concurrent_tasks_default
      (initGate ProxyAgent.max_concurrent_tasks_default) ∧
    ((initGate ProxyAgent.max_concurrent_tasks_default).active ≤
        ProxyAgent.max_concurrent_tasks_default ∧
      ∀ r : Except String ResultDict,
        PwsEv.releasePermit ∈ ProxyAgent.process_with_semaphore r) :=
  ⟨GateReach.init,
   c1_concurrency_bound ProxyAgent.max_concurrent_tasks_default
     (initGate ProxyAgent.max_concurrent_tasks_default) GateReach.init⟩

/-- Counterexample to claim C2: redelivery of an already-terminal task is not
always a no-op.  `core_agent_logic` reprocesses a task whose stored status is
the terminal `failed` (it writes `running` again and reruns the agent), and
`ProxyAgent.process_task` consults no stored status at all, so it writes
`running` unconditionally — also over a stored `canceled`. -/
theorem c2_counterexample :
    core_agent_logic (some "failed") "t1" "p" ≠ [] ∧
    CoreEv.setStatus "t1" "running" ∈ core_agent_logic (some "failed") "t1" "p" ∧
    Ev.setStatus (some "t1") "running" ∈
      (ProxyAgent.process_task true true (AgentStep.exn "boom") tdSample).2 := by
  refine ⟨?_, ?_, ?_⟩ <;> decide

/-- Claim C2 as amended: only `done` and `canceled` are absorbed by the
idempotency gate of `core_agent_logic` — rerunning on such a task performs no
status write, no agent invocation and no result write; a stored `failed`
status is not absorbed, and `ProxyAgent.process_task` performs no idempotency
check at all. -/
theorem c2_terminal_skip (st : Option String) (tid p : String)
    (h : st = some "done" ∨ st = some "canceled") :
    core_agent_logic st tid p = [] := by
  rcases h with h | h <;> simp [core_agent_logic, h]

/-- Witness for the amended C2 at status `done`. -/
theorem c2_terminal_skip_witness :
    ((some "done" : Option String) = some "done" ∨
      (some "done" : Option String) = some "canceled") ∧
    core_agent_logic (some "done") "t1" "p" = [] :=
  ⟨Or.inl rfl, c2_terminal_skip (some "done") "t1" "p" (Or.inl rfl)⟩

/-- Counterexample to claim C3: a message body that cannot be parsed as valid
JSON because it is not valid UTF-8 raises `UnicodeDecodeError`, which falls
into the generic `except Exception` handler of `_consumer_loop` — the message
is NOT acknowledged and is left for redelivery, contradicting the claim that
every unparseable message is acknowledged immediately. -/
theorem c3_counterexample :
    (ProxyAgent.consume_message 10 0 MsgBody.notUtf8).1 =
      MsgOutcome.leftForRedelivery ∧
    ConsEv.ackMsg ∉ (ProxyAgent.consume_message 10 0 MsgBody.notUtf8).2 := by
  decide

/-- Claim C3 as amended: when the loop has capacity, a message body that
decodes as UTF-8 but is not valid JSON is acknowledged immediately and
dropped — its whole trace is the single acknowledgment, so nothing is
dispatched, no status is written and no Outcome is published. -/
theorem c3_poison_acked (maxC active : Nat) (s : String) (h : active < maxC) :
    ProxyAgent.consume_message maxC active (MsgBody.badJson s) =
      (MsgOutcome.ackedPoison, [ConsEv.ackMsg]) := by
  simp [ProxyAgent.consume_message, Nat.not_le.mpr h]

/-- Witness for the amended C3. -/
theorem c3_poison_acked_witness :
    0 < 10 ∧
    ProxyAgent.consume_message 10 0 (MsgBody.badJson "oops") =
      (MsgOutcome.ackedPoison, [ConsEv.ackMsg]) :=
  ⟨by decide, c3_poison_acked 10 0 "oops" (by decide)⟩

/-- The publish step `_send_result_to_mq` contributes either nothing or exactly one publish of
the three-key body to the trace. -/
lemma send_result_shape (pI sOk : Bool) (td : TaskData) (r : ResultDict) :
    ProxyAgent.send_result_to_mq pI sOk td r = [] ∨
    ProxyAgent.send_result_to_mq pI sOk td r =
      [Ev.publish (ProxyAgent.send_result_body td r)] := by
  cases pI <;> cases sOk <;>
    simp [ProxyAgent.send_result_to_mq, ProxyAgent.send_result_raw]

/-- Publishes do not affect the stored status. -/
lemma lastStatus_append_publish (tid : Option String) (xs : List Ev)
    (b : List (String × JVal)) :
    lastStatus tid (xs ++ [Ev.publish b]) = lastStatus tid xs := by
  induction xs with
  | nil => simp [lastStatus]
  | cons e rest ih => simp [lastStatus, ih]

/-- The result publish step never changes the stored status. -/
lemma lastStatus_append_sends (pI sOk : Bool) (td : TaskData) (r : ResultDict)
    (tid : Option String) (xs : List Ev) :
    lastStatus tid (xs ++ ProxyAgent.send_result_to_mq pI sOk td r) =
      lastStatus tid xs := by
  rcases send_result_shape pI sOk td r with h | h <;>
    simp [h, lastStatus_append_publish]

/-- Counterexample to claim C4: when the `process` step of the agent capability raises
(here with message `boom` on task `t1`), the result sink receives exactly one
message — but its body is only `task_id`/`user_id`/`result` with `result`
null: it carries no `success` field and no `error` field at all, because
`_send_result_to_mq` serializes only `result.get("data")` and the error
information never leaves the worker. -/
theorem c4_counterexample :
    publishedBodies
      (ProxyAgent.process_task true true (AgentStep.exn "boom") tdSample).2 =
      [[("task_id", JVal.jstr "t1"), ("user_id", JVal.jstr "u1"),
        ("result", JVal.null)]] ∧
    lookupField "success"
      [("task_id", JVal.jstr "t1"), ("user_id", JVal.jstr "u1"),
       ("result", JVal.null)] = none ∧
    lookupField "error"
      [("task_id", JVal.jstr "t1"), ("user_id", JVal.jstr "u1"),
       ("result", JVal.null)] = none := by
  decide

/-- Claim C4 as amended: when the `process` step of the registered agent raises, the
status store ends at `failed` and the result sink receives exactly one
message for the task; the Outcome computed inside the worker
(`BaseAgent.execute` via `handle_error`) does report `success = False` with
the stringified exception as its error, but the published body contains only
`task_id`, `user_id` and a null `result` — no error code or message. -/
theorem c4_amended (td : TaskData) (e : String)
    (h : td.agent_type = "mock_agent") :
    lastStatus td.task_id
        (ProxyAgent.process_task true true (AgentStep.exn e) td).2 =
      some "failed" ∧
    publishCount (ProxyAgent.process_task true true (AgentStep.exn e) td).2 = 1 ∧
    (BaseAgent.execute td.agent_type td.task_id (AgentStep.exn e)).success =
      some false ∧
    (BaseAgent.execute td.agent_type td.task_id (AgentStep.exn e)).error =
      some (ErrVal.str e) ∧
    publishedBodies (ProxyAgent.process_task true true (AgentStep.exn e) td).2 =
      [[("task_id", optJ td.task_id), ("user_id", optJ td.user_id),
        ("result", JVal.null)]] := by
  have htrace : (ProxyAgent.process_task true true (AgentStep.exn e) td).2 =
      [Ev.setStatus td.task_id "running", Ev.setStatus td.task_id "failed",
       Ev.publish [("task_id", optJ td.task_id), ("user_id", optJ td.user_id),
         ("result", JVal.null)]] := by
    simp [ProxyAgent.process_task, ProxyAgent.execute_task, agentRegistry, h,
      BaseAgent.execute, BaseAgent.handle_error, ProxyAgent.send_result_to_mq,
      ProxyAgent.send_result_raw, ProxyAgent.send_result_body, optJ]
  refine ⟨?_, ?_, ?_, ?_, ?_⟩
  · rw [htrace]; simp [lastStatus]
  · rw [htrace]; simp [publishCount]
  · simp [BaseAgent.execute, BaseAgent.handle_error]
  · simp [BaseAgent.execute, BaseAgent.handle_error]
  · rw [htrace]; simp [publishedBodies]

/-- Witness for the amended C4 on task `t1` with exception message `boom`. -/
theorem c4_amended_witness :
    tdSample.agent_type = "mock_agent" ∧
    (lastStatus tdSample.task_id
        (ProxyAgent.process_task true true (AgentStep.exn "boom") tdSample).2 =
      some "failed" ∧
    publishCount
      (ProxyAgent.process_task true true (AgentStep.exn "boom") tdSample).2 = 1 ∧
    (BaseAgent.execute tdSample.agent_type tdSample.task_id
        (AgentStep.exn "boom")).success = some false ∧
    (BaseAgent.execute tdSample.agent_type tdSample.task_id
        (AgentStep.exn "boom")).error = some (ErrVal.str "boom") ∧
    publishedBodies
        (ProxyAgent.process_task true true (AgentStep.exn "boom") tdSample).2 =
      [[("task_id", optJ tdSample.task_id), ("user_id", optJ tdSample.user_id),
        ("result", JVal.null)]]) :=
  ⟨rfl, c4_amended tdSample "boom" rfl⟩

/-- The read `result.get("success", True)` is falsy exactly for an explicit
`success: False` entry. -/
lemma success_getD_false_iff (r : ResultDict) :
    r.success.getD true = false ↔ r.success = some false := by
  cases h : r.success with
  | none => simp
  | some b => cases b <;> simp

/-- The stored status after two status writes followed by whatever the result
publish step emits is the second write: publishes never touch the status. -/
lemma lastStatus_cons_cons_sends (tid : Option String) (v1 v2 : String)
    (pI sOk : Bool) (td : TaskData) (r : ResultDict) :
    lastStatus tid (Ev.setStatus tid v1 :: Ev.setStatus tid v2 ::
      ProxyAgent.send_result_to_mq pI sOk td r) = some v2 := by
  rcases send_result_shape pI sOk td r with h | h <;> simp [h, lastStatus]

/-- Claim C5: for every processed task, the final status written is `failed`
exactly when the agent outcome reports failure — `_execute_task` raising
(unknown agent type; the steps of the registered agent never propagate an
exception past `BaseAgent.execute`) or the result dict carrying an explicit
`success: False` (which is what `execute` turns an agent exception into) —
and `done` otherwise.  Holds for every producer/send behaviour, since the
publish step never writes status. -/
theorem c5_failed_iff_failure (pI sOk : Bool) (step : AgentStep)
    (td : TaskData) :
    (lastStatus td.task_id (ProxyAgent.process_task pI sOk step td).2 =
        some "failed" ↔
      (∃ e, ProxyAgent.execute_task step td.agent_type td.task_id =
          Except.error e) ∨
      (∃ r, ProxyAgent.execute_task step td.agent_type td.task_id =
          Except.ok r ∧ r.success = some false)) ∧
    (lastStatus td.task_id (ProxyAgent.process_task pI sOk step td).2 =
        some "done" ↔
      ¬((∃ e, ProxyAgent.execute_task step td.agent_type td.task_id =
          Except.error e) ∨
        (∃ r, ProxyAgent.execute_task step td.agent_type td.task_id =
          Except.ok r ∧ r.success = some false))) := by
  rcases hex : ProxyAgent.execute_task step td.agent_type td.task_id with e | r
  · have hls : lastStatus td.task_id
        (ProxyAgent.process_task pI sOk step td).2 = some "failed" := by
      simp [ProxyAgent.process_task, hex, lastStatus_cons_cons_sends]
    rw [hls]
    simp [hex]
  · by_cases hs : r.success = some false
    · have hgd := (success_getD_false_iff r).mpr hs
      have hls : lastStatus td.task_id
          (ProxyAgent.process_task pI sOk step td).2 = some "failed" := by
        simp [ProxyAgent.process_task, hex, hgd, lastStatus_cons_cons_sends]
      rw [hls]
      simp [hex, hs]
    · have hgd : ¬(r.success.getD true = false) := fun hc =>
        hs ((success_getD_false_iff r).mp hc)
      have hls : lastStatus td.task_id
          (ProxyAgent.process_task pI sOk step td).2 = some "done" := by
        simp [ProxyAgent.process_task, hex, hgd, lastStatus_cons_cons_sends]
      rw [hls]
      simp [hex, hs]

/-- Claim C6: every run of the task processor (with an initialized producer
and a succeeding send) has the exact trace: the `running` write, then one
terminal status write (`done` or `failed`), then exactly one publish — so
exactly one Outcome is published and it happens after the terminal status
write.  In the variant that has an idempotency gate (`core_agent_logic`), a
skipped redelivery of a `done` or `canceled` task produces an empty trace, so
nothing is republished on an idempotent skip. -/
theorem c6_publish_once_after_status (step : AgentStep) (td : TaskData) :
    (∃ b s, (s = "done" ∨ s = "failed") ∧
      (ProxyAgent.process_task true true step td).2 =
        [Ev.setStatus td.task_id "running", Ev.setStatus td.task_id s,
         Ev.publish b]) ∧
    ∀ tid p, core_agent_logic (some "done") tid p = [] ∧
      core_agent_logic (some "canceled") tid p = [] := by
  refine ⟨?_, ?_⟩
  · rcases hex : ProxyAgent.execute_task step td.agent_type td.task_id with e | r
    · refine ⟨[("task_id", optJ td.task_id), ("user_id", optJ td.user_id),
        ("result", JVal.null)], "failed", Or.inr rfl, ?_⟩
      simp [ProxyAgent.process_task, hex, ProxyAgent.send_result_to_mq,
        ProxyAgent.send_result_raw, ProxyAgent.send_result_body, optJ]
    · by_cases hs : r.success.getD true = false
      · refine ⟨ProxyAgent.send_result_body td r, "failed", Or.inr rfl, ?_⟩
        simp [ProxyAgent.process_task, hex, hs, ProxyAgent.send_result_to_mq,
          ProxyAgent.send_result_raw]
      · refine ⟨ProxyAgent.send_result_body td r, "done", Or.inl rfl, ?_⟩
        simp [ProxyAgent.process_task, hex, hs, ProxyAgent.send_result_to_mq,
          ProxyAgent.send_result_raw]
  · intro tid p
    exact ⟨by simp [core_agent_logic], by simp [core_agent_logic]⟩

/-- Claim C10: the Outcome publish step is fully contained — every exception
inside the try block of `_send_result_to_mq` is caught there (its callers only
ever see a normal return; in the embedding its result is whatever the try
block produced or nothing).  Consequently, when the agent succeeds but the
send raises, `process_task` still returns the result, the already-written
statuses stand with the final status `done`, and no Outcome is ever
delivered. -/
theorem c10_publish_failure_contained (step : AgentStep) (td : TaskData)
    (r : ResultDict)
    (hok : ProxyAgent.execute_task step td.agent_type td.task_id =
      Except.ok r)
    (hsucc : r.success.getD true = true) :
    ProxyAgent.process_task true false step td =
      (Except.ok r, [Ev.setStatus td.task_id "running",
        Ev.setStatus td.task_id "done"]) ∧
    publishCount (ProxyAgent.process_task true false step td).2 = 0 ∧
    lastStatus td.task_id (ProxyAgent.process_task true false step td).2 =
      some "done" ∧
    ∀ (pI sOk : Bool) (td' : TaskData) (r' : ResultDict),
      ProxyAgent.send_result_to_mq pI sOk td' r' = [] ∨
      ProxyAgent.send_result_to_mq pI sOk td' r' =
        [Ev.publish (ProxyAgent.send_result_body td' r')] := by
  have htrace : ProxyAgent.process_task true false step td =
      (Except.ok r, [Ev.setStatus td.task_id "running",
        Ev.setStatus td.task_id "done"]) := by
    simp [ProxyAgent.process_task, hok, hsucc, ProxyAgent.send_result_to_mq,
      ProxyAgent.send_result_raw]
  refine ⟨htrace, ?_, ?_, fun pI sOk td' r' => send_result_shape pI sOk td' r'⟩
  · rw [htrace]
    simp [publishCount]
  · rw [htrace]
    simp [lastStatus]

/-- Witness for C10: the mock agent succeeds on task `t1` while the producer
send raises; the processor still returns the result, status ends `done`, and
nothing is published. -/
theorem c10_publish_failure_contained_witness :
    ProxyAgent.execute_task (AgentStep.ok okSample) tdSample.agent_type
        tdSample.task_id = Except.ok okSample ∧
    okSample.success.getD true = true ∧
    (ProxyAgent.process_task true false (AgentStep.ok okSample) tdSample =
      (Except.ok okSample, [Ev.setStatus tdSample.task_id "running",
        Ev.setStatus tdSample.task_id "done"]) ∧
    publishCount
      (ProxyAgent.process_task true false (AgentStep.ok okSample) tdSample).2 =
      0 ∧
    lastStatus tdSample.task_id
      (ProxyAgent.process_task true false (AgentStep.ok okSample) tdSample).2 =
      some "done" ∧
    ∀ (pI sOk : Bool) (td' : TaskData) (r' : ResultDict),
      ProxyAgent.send_result_to_mq pI sOk td' r' = [] ∨
      ProxyAgent.send_result_to_mq pI sOk td' r' =
        [Ev.publish (ProxyAgent.send_result_body td' r')]) :=
  ⟨by simp [ProxyAgent.execute_task, agentRegistry, BaseAgent.execute,
      tdSample],
   by decide,
   c10_publish_failure_contained (AgentStep.ok okSample) tdSample okSample
     (by simp [ProxyAgent.execute_task, agentRegistry, BaseAgent.execute,
        tdSample])
     (by decide)⟩

/-- Claim C7: a message the loop admits is handled in exactly the order:
semaphore acquire, in-flight increment, acknowledgment, background dispatch —
so the permit is taken before the ack and the ack happens before any
processing — and the acknowledgment handle is consumed exactly once. -/
theorem c7_acquire_ack_dispatch (maxC active : Nat) (d : ParsedMsg)
    (h : active < maxC) :
    ProxyAgent.consume_message maxC active (MsgBody.jsonDict d) =
      (MsgOutcome.accepted (taskDataOfMsg d),
       [ConsEv.acquireSem, ConsEv.incActive, ConsEv.ackMsg,
        ConsEv.dispatchTask (taskDataOfMsg d)]) ∧
    countEv ConsEv.ackMsg
      (ProxyAgent.consume_message maxC active (MsgBody.jsonDict d)).2 = 1 := by
  have he : ProxyAgent.consume_message maxC active (MsgBody.jsonDict d) =
      (MsgOutcome.accepted (taskDataOfMsg d),
       [ConsEv.acquireSem, ConsEv.incActive, ConsEv.ackMsg,
        ConsEv.dispatchTask (taskDataOfMsg d)]) := by
    simp [ProxyAgent.consume_message, Nat.not_le.mpr h]
  refine ⟨he, ?_⟩
  rw [he]
  simp [countEv]

/-- Witness for C7 at capacity 10 with no task in flight. -/
theorem c7_acquire_ack_dispatch_witness :
    (0 : Nat) < 10 ∧
    (ProxyAgent.consume_message 10 0 (MsgBody.jsonDict pmSample) =
      (MsgOutcome.accepted (taskDataOfMsg pmSample),
       [ConsEv.acquireSem, ConsEv.incActive, ConsEv.ackMsg,
        ConsEv.dispatchTask (taskDataOfMsg pmSample)]) ∧
     countEv ConsEv.ackMsg
       (ProxyAgent.consume_message 10 0 (MsgBody.jsonDict pmSample)).2 = 1) :=
  ⟨by decide, c7_acquire_ack_dispatch 10 0 pmSample (by decide)⟩

/-- The per-message handler only breaks when the loop is saturated. -/
lemma consume_message_break {maxC active : Nat} {b : MsgBody}
    {evs : List ConsEv}
    (h : ProxyAgent.consume_message maxC active b =
      (MsgOutcome.saturatedBreak, evs)) :
    maxC ≤ active := by
  by_cases hle : maxC ≤ active
  · exact hle
  · exfalso
    cases b <;> simp [ProxyAgent.consume_message, hle] at h

/-- The per-message handler only admits a task when capacity remains. -/
lemma consume_message_accepted {maxC active : Nat} {b : MsgBody}
    {d : TaskData} {evs : List ConsEv}
    (h : ProxyAgent.consume_message maxC active b =
      (MsgOutcome.accepted d, evs)) :
    active < maxC := by
  by_cases hle : maxC ≤ active
  · exfalso
    simp [ProxyAgent.consume_message, hle] at h
  · omega

/-- Draining a batch never pushes the in-flight counter beyond capacity. -/
lemma drain_batch_le (maxC : Nat) :
    ∀ (msgs : List MsgBody) (active : Nat), active ≤ maxC →
      (ProxyAgent.drain_batch maxC active msgs).1 ≤ maxC := by
  intro msgs
  induction msgs with
  | nil =>
      intro active h
      simpa [ProxyAgent.drain_batch] using h
  | cons b rest ih =>
      intro active h
      rcases hcm : ProxyAgent.consume_message maxC active b with ⟨out, evs⟩
      cases out with
      | saturatedBreak =>
          simpa [ProxyAgent.drain_batch, hcm] using h
      | accepted d =>
          have hlt := consume_message_accepted hcm
          simpa [ProxyAgent.drain_batch, hcm] using ih (active + 1) hlt
      | ackedPoison =>
          simpa [ProxyAgent.drain_batch, hcm] using ih active h
      | leftForRedelivery =>
          simpa [ProxyAgent.drain_batch, hcm] using ih active h

/-- If the drain handled strictly fewer messages than it was given, it
stopped because the counter hit capacity. -/
lemma drain_batch_stop (maxC : Nat) :
    ∀ (msgs : List MsgBody) (active : Nat),
      (ProxyAgent.drain_batch maxC active msgs).2.length < msgs.length →
      maxC ≤ (ProxyAgent.drain_batch maxC active msgs).1 := by
  intro msgs
  induction msgs with
  | nil =>
      intro active h
      simp [ProxyAgent.drain_batch] at h
  | cons b rest ih =>
      intro active h
      rcases hcm : ProxyAgent.consume_message maxC active b with ⟨out, evs⟩
      cases out with
      | saturatedBreak =>
          simpa [ProxyAgent.drain_batch, hcm] using consume_message_break hcm
      | accepted d =>
          simp [ProxyAgent.drain_batch, hcm] at h ⊢
          exact ih (active + 1) h
      | ackedPoison =>
          simp [ProxyAgent.drain_batch, hcm] at h ⊢
          exact ih active h
      | leftForRedelivery =>
          simp [ProxyAgent.drain_batch, hcm] at h ⊢
          exact ih active h

/-- Claim C8: while saturated, an iteration of the consumer loop only sleeps
and re-checks (no receive call); otherwise it receives with batch size
`min(available_slots, 16)` and visibility window 30; and draining a batch
re-checks capacity per message — the counter never exceeds capacity, and if
any part of the batch was left unprocessed the drain had exactly reached
capacity. -/
theorem c8_backpressure (maxC active : Nat) (msgs : List MsgBody) :
    (maxC ≤ active →
      ProxyAgent.loop_iteration maxC active msgs =
        ([IterEv.sleepBackoff], (active, []))) ∧
    (active < maxC →
      IterEv.receiveCall (min (maxC - active) 16) 30 ∈
        (ProxyAgent.loop_iteration maxC active msgs).1) ∧
    (active ≤ maxC →
      (ProxyAgent.drain_batch maxC active msgs).1 ≤ maxC ∧
      ((ProxyAgent.drain_batch maxC active msgs).2.length < msgs.length →
        (ProxyAgent.drain_batch maxC active msgs).1 = maxC)) := by
  refine ⟨?_, ?_, ?_⟩
  · intro h
    simp [ProxyAgent.loop_iteration, h]
  · intro h
    by_cases hm : msgs = [] <;>
      simp [ProxyAgent.loop_iteration, Nat.not_le.mpr h, hm]
  · intro h
    refine ⟨drain_batch_le maxC msgs active h, fun hlen => ?_⟩
    exact Nat.le_antisymm (drain_batch_le maxC msgs active h)
      (drain_batch_stop maxC msgs active hlen)

/-- Witness for C8: capacity 2, three valid pending messages — exactly two
are admitted, the drain stops at capacity, and the receive batch size is
computed from the available slots. -/
theorem c8_backpressure_witness :
    (0 : Nat) < 2 ∧ (0 : Nat) ≤ 2 ∧
    IterEv.receiveCall (min (2 - 0) 16) 30 ∈
      (ProxyAgent.loop_iteration 2 0 sampleBatch).1 ∧
    (ProxyAgent.drain_batch 2 0 sampleBatch).1 ≤ 2 ∧
    (ProxyAgent.drain_batch 2 0 sampleBatch).1 = 2 :=
  ⟨by decide, by decide,
   (c8_backpressure 2 0 sampleBatch).2.1 (by decide),
   ((c8_backpressure 2 0 sampleBatch).2.2 (by decide)).1,
   ((c8_backpressure 2 0 sampleBatch).2.2 (by decide)).2 (by decide)⟩

/-- The final wait time of the drain loop is bounded by its fuel. -/
lemma drain_wait_fst_le (activeAt : Nat → Nat) :
    ∀ (fuel t : Nat), (ProxyAgent.drain_wait activeAt t fuel).1 ≤ t + fuel := by
  intro fuel
  induction fuel with
  | zero =>
      intro t
      simp [ProxyAgent.drain_wait]
  | succ n ih =>
      intro t
      by_cases h : 0 < activeAt t
      · have := ih (t + 1)
        simp only [ProxyAgent.drain_wait, if_pos h]
        omega
      · simp only [ProxyAgent.drain_wait, if_neg h]
        omega

/-- The drain loop only emits one-second sleeps. -/
lemma drain_wait_events (activeAt : Nat → Nat) :
    ∀ (fuel t : Nat) (e : ShutEv),
      e ∈ (ProxyAgent.drain_wait activeAt t fuel).2 →
      e = ShutEv.drainSleepSecond := by
  intro fuel
  induction fuel with
  | zero =>
      intro t e he
      simp [ProxyAgent.drain_wait] at he
  | succ n ih =>
      intro t e he
      by_cases h : 0 < activeAt t
      · simp only [ProxyAgent.drain_wait, if_pos h, List.mem_cons] at he
        rcases he with he | he
        · exact he
        · exact ih (t + 1) e he
      · simp [ProxyAgent.drain_wait, if_neg h] at he

/-- The drain loop sleeps at most `fuel` times. -/
lemma drain_wait_len (activeAt : Nat → Nat) :
    ∀ (fuel t : Nat), (ProxyAgent.drain_wait activeAt t fuel).2.length ≤ fuel := by
  intro fuel
  induction fuel with
  | zero =>
      intro t
      simp [ProxyAgent.drain_wait]
  | succ n ih =>
      intro t
      by_cases h : 0 < activeAt t
      · have := ih (t + 1)
        simp only [ProxyAgent.drain_wait, if_pos h, List.length_cons]
        omega
      · simp [ProxyAgent.drain_wait, if_neg h]

/-- If no task is in flight at the start, the drain loop exits at once. -/
lemma drain_wait_zero (activeAt : Nat → Nat) (t : Nat)
    (h : ¬0 < activeAt t) :
    ∀ fuel, ProxyAgent.drain_wait activeAt t fuel = (t, []) := by
  intro fuel
  cases fuel with
  | zero => simp [ProxyAgent.drain_wait]
  | succ n => simp [ProxyAgent.drain_wait, if_neg h]

/-- A count is bounded by the list length. -/
lemma countEv_le_length {α : Type} [DecidableEq α] (e : α) (l : List α) :
    countEv e l ≤ l.length := by
  induction l with
  | nil => simp [countEv]
  | cons x xs ih =>
      simp only [countEv, List.length_cons]
      by_cases h : x = e <;> simp [h] <;> omega

/-- Counting distributes over append. -/
lemma countEv_append {α : Type} [DecidableEq α] (e : α) (xs ys : List α) :
    countEv e (xs ++ ys) = countEv e xs + countEv e ys := by
  induction xs with
  | nil => simp [countEv]
  | cons x xs ih =>
      show (if x = e then 1 else 0) + countEv e (xs ++ ys) =
        (if x = e then 1 else 0) + countEv e xs + countEv e ys
      rw [ih]
      omega

/-- Membership in a conditional list with empty alternative. -/
lemma mem_ite_nil {α : Type} {c : Prop} [Decidable c] {e : α} {X : List α}
    (h : e ∈ (if c then X else [])) : e ∈ X := by
  split at h
  · exact h
  · simp at h

/-- Membership in a conditional list whose then-branch is empty. -/
lemma mem_ite_nil_left {α : Type} {c : Prop} [Decidable c] {e : α}
    {X : List α} (h : e ∈ (if c then [] else X)) : e ∈ X := by
  split at h
  · simp at h
  · exact h

/-- Claim C9: shutdown always returns in bounded time — it first signals the
stop event, waits on the consumer task with a 10-second timeout and
force-cancels on timeout, drains in-flight tasks for at most 30 one-second
sleeps, warns when tasks are still active at the end of the drain, shuts the
MQ connections and never closes the shared Redis client. -/
theorem c9_bounded_shutdown (loopExits : Bool) (activeAt : Nat → Nat) :
    (ProxyAgent.shutdown true loopExits activeAt).head? =
      some ShutEv.signalStop ∧
    ShutEv.awaitLoopWithTimeout 10 ∈
      ProxyAgent.shutdown true loopExits activeAt ∧
    (loopExits = false →
      ShutEv.cancelLoop ∈ ProxyAgent.shutdown true loopExits activeAt) ∧
    (ProxyAgent.drain_wait activeAt 0 30).1 ≤ 30 ∧
    countEv ShutEv.drainSleepSecond
      (ProxyAgent.shutdown true loopExits activeAt) ≤ 30 ∧
    (0 < activeAt (ProxyAgent.drain_wait activeAt 0 30).1 →
      ShutEv.warnTasksStillActive
          (activeAt (ProxyAgent.drain_wait activeAt 0 30).1) ∈
        ProxyAgent.shutdown true loopExits activeAt) ∧
    ShutEv.mqShutdownAll ∈ ProxyAgent.shutdown true loopExits activeAt ∧
    ShutEv.redisClose ∉ ProxyAgent.shutdown true loopExits activeAt := by
  have hsh : ProxyAgent.shutdown true loopExits activeAt =
      [ShutEv.signalStop, ShutEv.awaitLoopWithTimeout 10] ++
      (if loopExits then [] else
        [ShutEv.warnLoopTimeout, ShutEv.cancelLoop]) ++
      (if 0 < activeAt 0 then
          (ProxyAgent.drain_wait activeAt 0 30).2 ++
          (if 0 < activeAt (ProxyAgent.drain_wait activeAt 0 30).1 then
             [ShutEv.warnTasksStillActive
               (activeAt (ProxyAgent.drain_wait activeAt 0 30).1)]
           else [])
       else []) ++
      [ShutEv.mqShutdownAll] := by
    simp [ProxyAgent.shutdown]
  refine ⟨?_, ?_, ?_, ?_, ?_, ?_, ?_, ?_⟩
  · rw [hsh]
    rfl
  · rw [hsh]
    simp
  · intro h
    rw [hsh]
    simp [h]
  · have := drain_wait_fst_le activeAt 30 0
    omega
  · rw [hsh]
    rw [countEv_append, countEv_append, countEv_append]
    have h1 : countEv ShutEv.drainSleepSecond
        [ShutEv.signalStop, ShutEv.awaitLoopWithTimeout 10] = 0 := by
      simp [countEv]
    have h2 : countEv ShutEv.drainSleepSecond
        (if loopExits then [] else
          [ShutEv.warnLoopTimeout, ShutEv.cancelLoop]) = 0 := by
      cases loopExits <;> simp [countEv]
    have h4 : countEv ShutEv.drainSleepSecond [ShutEv.mqShutdownAll] = 0 := by
      simp [countEv]
    have h3 : countEv ShutEv.drainSleepSecond
        (if 0 < activeAt 0 then
            (ProxyAgent.drain_wait activeAt 0 30).2 ++
            (if 0 < activeAt (ProxyAgent.drain_wait activeAt 0 30).1 then
               [ShutEv.warnTasksStillActive
                 (activeAt (ProxyAgent.drain_wait activeAt 0 30).1)]
             else [])
         else []) ≤ 30 := by
      by_cases h0 : 0 < activeAt 0
      · rw [if_pos h0, countEv_append]
        have ha : countEv ShutEv.drainSleepSecond
            (ProxyAgent.drain_wait activeAt 0 30).2 ≤ 30 :=
          le_trans (countEv_le_length _ _) (drain_wait_len activeAt 30 0)
        have hb : countEv ShutEv.drainSleepSecond
            (if 0 < activeAt (ProxyAgent.drain_wait activeAt 0 30).1 then
               [ShutEv.warnTasksStillActive
                 (activeAt (ProxyAgent.drain_wait activeAt 0 30).1)]
             else []) = 0 := by
          by_cases hw : 0 < activeAt (ProxyAgent.drain_wait activeAt 0 30).1 <;>
            simp [hw, countEv]
        omega
      · simp [h0, countEv]
    omega
  · intro hw
    have h0 : 0 < activeAt 0 := by
      by_contra h0
      rw [drain_wait_zero activeAt 0 h0 30] at hw
      exact h0 hw
    rw [hsh]
    simp [h0, hw]
  · rw [hsh]
    simp
  · intro hmem
    rw [hsh] at hmem
    rcases List.mem_append.mp hmem with hmem1 | hmem2
    · rcases List.mem_append.mp hmem1 with hmem3 | hmem4
      · rcases List.mem_append.mp hmem3 with hmem5 | hmem6
        · simp at hmem5
        · have h6 := mem_ite_nil_left hmem6
          simp at h6
      · have h4 := mem_ite_nil hmem4
        rcases List.mem_append.mp h4 with hd | hw
        · have := drain_wait_events activeAt 30 0 ShutEv.redisClose hd
          simp at this
        · have := mem_ite_nil hw
          simp at this
    · simp at hmem2

/-- Witness for C9: the loop misses its 10-second window (so it is
force-cancelled) and three tasks drain after two seconds. -/
theorem c9_bounded_shutdown_witness :
    ((false : Bool) = false ∧
      ShutEv.cancelLoop ∈
        ProxyAgent.shutdown true false (fun t => if t < 2 then 3 else 0)) ∧
    (ProxyAgent.drain_wait (fun t => if t < 2 then 3 else 0) 0 30).1 ≤ 30 ∧
    ShutEv.mqShutdownAll ∈
      ProxyAgent.shutdown true false (fun t => if t < 2 then 3 else 0) ∧
    ShutEv.redisClose ∉
      ProxyAgent.shutdown true false (fun t => if t < 2 then 3 else 0) := by
  have h := c9_bounded_shutdown false (fun t => if t < 2 then 3 else 0)
  exact ⟨⟨rfl, h.2.2.1 rfl⟩, h.2.2.2.1, h.2.2.2.2.2.2.1, h.2.2.2.2.2.2.2⟩
